import Mathlib

set_option maxRecDepth 4000

namespace Sentry

/-! Shallow embedding of `sentry/client/base.py` (class `SentryClient`) together with the
collaborators it uses.  Collaborators that live outside the given sources
(`sentry.helpers`, `sentry.conf`, the Django cache and logging record objects) are
modelled from the specification and marked as such in their doc comments. -/

/-- Python character count of a string (`len(s)`). -/
def pyLen (s : String) : Nat := s.data.length

/-- Python slice `s[:n]`. -/
def pySlice (s : String) (n : Nat) : String := String.mk (s.data.take n)

/-- Structured runtime values: the shapes `transform`/`varmap` walk over
(strings, numbers, `None`, dicts keyed by strings, lists). -/
inductive Val where
| str (s : String)
| num (n : Int)
| vnull
| vdict (kvs : List (String × Val))
| vlist (vs : List Val)

/-- Modelled from the spec: the string rule of the Value Sanitizer (spec section 4.1,
`transform` in `sentry/helpers.py`, which is not among the given sources): strings longer
than the 200-character bound are truncated and get an ellipsis marker. -/
def transformStr (s : String) : String :=
  if 200 < pyLen s then pySlice s 200 ++ "..." else s

mutual

/-- Modelled from the spec: `transform` (the Value Sanitizer, spec section 4.1) from
`sentry/helpers.py`, which is not among the given sources.  Mappings recurse into values
preserving keys; sequences recurse elementwise and are capped at 50 elements with a
truncation marker; strings longer than 200 characters are truncated with an ellipsis
marker; other scalars pass through unchanged. -/
def transform : Val → Val
| .str s => .str (transformStr s)
| .num n => .num n
| .vnull => .vnull
| .vdict kvs => .vdict (transformDict kvs)
| .vlist vs => .vlist (transformCapped 50 vs)

/-- Value-wise recursion of `transform` into a mapping. -/
def transformDict : List (String × Val) → List (String × Val)
| [] => []
| (k, v) :: rest => (k, transform v) :: transformDict rest

/-- Element-wise recursion of `transform` into a sequence, capping the length at the
given budget and ending with a truncation marker when elements remain. -/
def transformCapped : Nat → List Val → List Val
| _, [] => []
| 0, _ :: _ => [.str "..."]
| n + 1, v :: rest => transform v :: transformCapped n rest

end

mutual

/-- Modelled from the spec: `varmap` from `sentry/helpers.py`, which is not among the
given sources: recurse through dicts and lists, applying the function to every leaf. -/
def varmap (f : Val → Val) : Val → Val
| .vdict kvs => .vdict (varmapDict f kvs)
| .vlist vs => .vlist (varmapList f vs)
| v => f v

/-- `varmap` over the entries of a dict. -/
def varmapDict (f : Val → Val) : List (String × Val) → List (String × Val)
| [] => []
| (k, v) :: rest => (k, varmap f v) :: varmapDict f rest

/-- `varmap` over the elements of a list. -/
def varmapList (f : Val → Val) : List Val → List Val
| [] => []
| v :: rest => varmap f v :: varmapList f rest

end

/-- `shorten` from `SentryClient.create_from_exception` (base.py lines 139-143):
sanitize one value with `transform`, then clip a string result longer than 200
characters to its first 200 characters plus `'...'`. -/
def shorten (var : Val) : Val :=
  match transform var with
  | .str s => if 200 < pyLen s then .str (pySlice s 200 ++ "...") else .str s
  | v => v

mutual

/-- All string leaves of a value, in order. -/
def strLeaves : Val → List String
| .str s => [s]
| .num _ => []
| .vnull => []
| .vdict kvs => strLeavesDict kvs
| .vlist vs => strLeavesList vs

/-- String leaves of the entries of a dict. -/
def strLeavesDict : List (String × Val) → List String
| [] => []
| (_, v) :: rest => strLeaves v ++ strLeavesDict rest

/-- String leaves of the elements of a list. -/
def strLeavesList : List Val → List String
| [] => []
| v :: rest => strLeaves v ++ strLeavesList rest

end

/-- The truncation map claimed for sanitized frame data: a string of more than 200
characters becomes its first 200 characters followed by `'...'`; shorter strings are
unchanged. -/
def clipStr (s : String) : String :=
  if 200 < pyLen s then pySlice s 200 ++ "..." else s

/-- Replace (or append) the binding of `key` in an association list, as Python
`d[key] = v` on a dict. -/
def assocSet {α : Type} : List (String × α) → String → α → List (String × α)
| [], key, v => [(key, v)]
| (k, v0) :: rest, key, v =>
  if k = key then (key, v) :: rest else (k, v0) :: assocSet rest key v

/-- Python `d.update(pairs)`: set every binding in turn. -/
def assocSetMany {α : Type} (d : List (String × α)) (pairs : List (String × α)) :
    List (String × α) :=
  pairs.foldl (fun acc kv => assocSet acc kv.1 kv.2) d

/-- `logging.ERROR`. -/
def ERROR : Nat := 40

/-- The keyword-argument bag that flows through `SentryClient`.  Every key the client
reads or writes is a field; `none` models the key being absent from `kwargs`. -/
structure Kwargs where
  message : Option String := none
  level : Option Nat := none
  server_name : Option String := none
  checksum : Option String := none
  class_name : Option String := none
  view : Option String := none
  url : Option String := none
  logger : Option String := none
  traceback : Option String := none
  data : Option (List (String × Val)) := none

/-- The empty keyword-argument bag. -/
def noKwargs : Kwargs := {}

/-- Configuration read by the client.  `NAME`, `REMOTE_URL`, `KEY`, `REMOTE_TIMEOUT`,
`THRASHING_TIMEOUT`, `THRASHING_LIMIT`, `INCLUDE_PATHS` and `EXCLUDE_PATHS` mirror
`sentry.conf`.  `INSTALLED_APPS` is modelled from the spec for `get_installed_apps()`
(the cached known-application-module list), and `FILTERS` is modelled from the spec for
`get_filters()` (the ordered filter chain, each filter returning a transformed bag or
nothing). -/
structure Conf where
  NAME : String := "server"
  REMOTE_URL : List String := []
  KEY : String := ""
  REMOTE_TIMEOUT : Nat := 5
  THRASHING_TIMEOUT : Nat := 0
  THRASHING_LIMIT : Nat := 0
  INCLUDE_PATHS : List String := []
  EXCLUDE_PATHS : List String := []
  INSTALLED_APPS : List String := []
  FILTERS : List (Kwargs → Option Kwargs) := []

/-- A fixed-width digest of a string: a 32-bit polynomial hash rendered as 8 hex
digits.  Stands in for the fixed-length hash named by the spec; everything proved here
uses only that it is a function of its input. -/
def digest (s : String) : String :=
  let h := s.data.foldl (fun h c => (h * 31 + c.toNat) % 4294967296) 5381
  let hex := String.mk (Nat.toDigits 16 h)
  String.mk (List.replicate (8 - pyLen hex) '0') ++ hex

/-- The first line of a string (up to the first newline). -/
def firstLine (s : String) : String := String.mk (s.data.takeWhile (fun c => c ≠ '\n'))

/-- Modelled from the spec: `construct_checksum` from `sentry/helpers.py`, which is not
among the given sources (spec section 4.2): fingerprint the stable concatenation of the
class name if present, otherwise the first line of the message, plus the traceback text
if present, with a fixed-length digest. -/
def construct_checksum (kw : Kwargs) : String :=
  let base :=
    match kw.class_name with
    | some c => if c ≠ "" then c else firstLine (kw.message.getD "")
    | none => firstLine (kw.message.getD "")
  let tb := match kw.traceback with | some t => t | none => ""
  digest (base ++ tb)

/-- The checksum `process` works with (base.py lines 27-30): the caller-supplied one if
the key is present, otherwise the freshly computed one. -/
def usedChecksum (kw : Kwargs) : String :=
  match kw.checksum with
  | some c => c
  | none => construct_checksum kw

/-- The thrash-counter cache key of base.py line 33:
`'sentry:%s:%s' % (kwargs.get('class_name') or '', checksum)`. -/
def throttleKey (kw : Kwargs) : String :=
  "sentry:" ++ kw.class_name.getD "" ++ ":" ++ usedChecksum kw

/-- One entry of the shared counter store: current value and absolute expiry time. -/
structure CacheEntry where
  value : Nat
  expiry : Nat
deriving DecidableEq

/-- Modelled from the spec: the Throttle Gate counter store (`django.core.cache`, an
external collaborator): keys map to counters that disappear once their expiry time is
reached.  Time is an explicit natural-number parameter. -/
abbrev CacheState := List (String × CacheEntry)

/-- Look a key up in the store. -/
def cacheLookup : CacheState → String → Option CacheEntry
| [], _ => none
| (k, e) :: rest, key => if k = key then some e else cacheLookup rest key

/-- Modelled from the spec: `cache.add(key, value, timeout)` — add-if-absent.  Returns
whether the value was added; an entry whose expiry has passed counts as absent and is
overwritten. -/
def cacheAdd (st : CacheState) (key : String) (val : Nat) (timeout now : Nat) :
    Bool × CacheState :=
  match cacheLookup st key with
  | some e =>
    if now < e.expiry then (false, st)
    else (true, assocSet st key ⟨val, now + timeout⟩)
  | none => (true, assocSet st key ⟨val, now + timeout⟩)

/-- Modelled from the spec: `cache.incr(key)` — atomic increment, keeping the expiry.
It fails (the `KeyError`/`ValueError` of base.py line 38) when the key is absent or
expired, or on a transient store fault, signalled by the explicit `fault` flag. -/
def cacheIncr (st : CacheState) (key : String) (now : Nat) (fault : Bool) :
    CacheState × Option Nat :=
  if fault then (st, none)
  else
    match cacheLookup st key with
    | some e =>
      if now < e.expiry then
        (assocSet st key ⟨e.value + 1, e.expiry⟩, some (e.value + 1))
      else (st, none)
    | none => (st, none)

/-- The `setdefault` calls of base.py lines 24-25. -/
def defaults (conf : Conf) (kw : Kwargs) : Kwargs :=
  { kw with
    level := some (kw.level.getD ERROR),
    server_name := some (kw.server_name.getD conf.NAME) }

/-- The filter loop of base.py lines 46-47: each filter's result replaces the bag
unless the filter returned nothing, in which case the bag is kept unchanged. -/
def applyFilters : List (Kwargs → Option Kwargs) → Kwargs → Kwargs
| [], kw => kw
| f :: rest, kw => applyFilters rest ((f kw).getD kw)

/-- The tail of `process` once throttling has let the event through (base.py lines
46-53): run the filter chain, then coerce the `data` value with `transform`. -/
def finishProcess (conf : Conf) (kw : Kwargs) : Kwargs :=
  let kw := applyFilters conf.FILTERS kw
  match kw.data with
  | some d => { kw with data := some (transformDict d) }
  | none => kw

/-- `SentryClient.process` (base.py lines 21-53) up to the hand-off to `send`:
fill defaults, fix the checksum, consult the throttle gate (which may silently drop the
event), run the filter chain and coerce `data`.  The result is the updated counter
store plus the keyword bag handed to `send`, or `none` when the event was suppressed.
`now` is the current time and `fault` tells the counter store to fail its increment
(the transient error of base.py lines 38-42). -/
def processCore (conf : Conf) (st : CacheState) (now : Nat) (fault : Bool)
    (kw0 : Kwargs) : CacheState × Option Kwargs :=
  let kw := defaults conf kw0
  if conf.THRASHING_TIMEOUT ≠ 0 ∧ conf.THRASHING_LIMIT ≠ 0 then
    let key := throttleKey kw
    let (added, st1) := cacheAdd st key 1 conf.THRASHING_TIMEOUT now
    if added then (st1, some (finishProcess conf kw))
    else
      let (st2, cnt) := cacheIncr st1 key now fault
      let thrash_count := cnt.getD 0
      if conf.THRASHING_LIMIT < thrash_count then (st2, none)
      else (st2, some (finishProcess conf kw))
  else (st, some (finishProcess conf kw))

/-- Outcome of one delivery attempt by the external `urlread` collaborator. -/
inductive NetResult where
| success
| urlError (msg : String)
| httpError (msg body : String)
deriving DecidableEq

/-- Is the attempt a failure (`urllib2.URLError` or `urllib2.HTTPError`)? -/
def NetResult.isFailure : NetResult → Bool
| .success => false
| .urlError _ => true
| .httpError _ _ => true

/-- Records which `logger` calls `send` makes: the delivery-failure error line (with
the failing endpoint and, for HTTP errors, the response body) and the local fallback
re-emission of the event's level and message. -/
inductive LogCall where
| deliveryError (url : String) (body : Option String)
| fallback (level : Nat) (message : Option String)
deriving DecidableEq

/-- `kwargs.pop('level', None)`, `kwargs.pop('message', None)` of base.py lines 66/69:
both keys are removed from the bag. -/
def popLevelMessage (kw : Kwargs) : Kwargs :=
  { kw with level := none, message := none }

/-- The level value the fallback log call uses:
`kwargs.pop('level', None) or logging.ERROR`. -/
def fallbackLevel (kw : Kwargs) : Nat :=
  match kw.level with
  | some l => if l = 0 then ERROR else l
  | none => ERROR

/-- The endpoint loop of `SentryClient.send` (base.py lines 57-69).  For each URL the
payload is serialized from the keyword bag *as it is at that moment*; on failure the
two logger calls run and `pop` removes `level` and `message` from the bag before the
loop moves on.  Returns the per-endpoint payloads, the logger calls, and the final
bag. -/
def sendLoop (net : String → NetResult) :
    List String → Kwargs → List (String × Kwargs) × List LogCall × Kwargs
| [], kw => ([], [], kw)
| url :: rest, kw =>
  match net url with
  | .success =>
    let (tr, lg, kwEnd) := sendLoop net rest kw
    ((url, kw) :: tr, lg, kwEnd)
  | .urlError _ =>
    let logs := [.deliveryError url none, .fallback (fallbackLevel kw) kw.message]
    let (tr, lg, kwEnd) := sendLoop net rest (popLevelMessage kw)
    ((url, kw) :: tr, logs ++ lg, kwEnd)
  | .httpError _ body =>
    let logs := [.deliveryError url (some body), .fallback (fallbackLevel kw) kw.message]
    let (tr, lg, kwEnd) := sendLoop net rest (popLevelMessage kw)
    ((url, kw) :: tr, logs ++ lg, kwEnd)

/-- Observable outcome of `SentryClient.send` (base.py lines 55-73): either the remote
loop ran (attempted payloads plus logger calls), or, with no remote endpoints
configured, the bag went to the local `GroupedMessage` store. -/
inductive SendResult where
| remote (attempts : List (String × Kwargs)) (logs : List LogCall)
| stored (kw : Kwargs)

/-- `SentryClient.send`: remote delivery when `conf.REMOTE_URL` is non-empty, local
storage otherwise.  `net` gives each endpoint's delivery outcome. -/
def send (conf : Conf) (net : String → NetResult) (kw : Kwargs) : SendResult :=
  if conf.REMOTE_URL ≠ [] then
    let (tr, lg, _) := sendLoop net conf.REMOTE_URL kw
    .remote tr lg
  else .stored kw

/-- `SentryClient.process` including the hand-off to `send`. -/
def process (conf : Conf) (net : String → NetResult) (st : CacheState) (now : Nat)
    (fault : Bool) (kw : Kwargs) : CacheState × Option SendResult :=
  let (st1, r) := processCore conf st now fault kw
  (st1, r.map (send conf net))

/-- One frame of the traceback chain (`tb.tb_frame`): the module name from
`frame.f_globals['__name__']` (`none` when the lookup would raise) and the function
name `frame.f_code.co_name`. -/
structure Frame where
  module_name : Option String
  co_name : String
deriving DecidableEq

/-- The dotted identifier of base.py line 173,
`'.'.join([frame.f_globals['__name__'], frame.f_code.co_name])`; `none` models the
`except: continue` of lines 174-175. -/
def Frame.ident (f : Frame) : Option String :=
  f.module_name.map (fun m => m ++ "." ++ f.co_name)

/-- Python `value.startswith(k)`, computed on the character lists. -/
def pyStartsWith (v k : String) : Bool :=
  decide (v.data.take k.data.length = k.data)

/-- `contains(iterator, value)` of base.py lines 159-163: does the value start with any
of the listed prefixes? -/
def startsWithAny (ps : List String) (v : String) : Bool :=
  ps.any (fun k => pyStartsWith v k)

/-- The frame walk of base.py lines 169-180, carrying the `best_guess` and `view`
variables.  A frame without an identifier is skipped.  An identifier inside the known
modules becomes the best guess unless it matches an excluded prefix while a best guess
already exists.  An identifier outside the known modules stops the walk when a best
guess exists; otherwise it is merely remembered in `view`. -/
def resolveLoop (modules excl : List String) :
    List Frame → Option String → Option String → Option String × Option String
| [], bg, v => (bg, v)
| f :: rest, bg, v =>
  match f.ident with
  | none => resolveLoop modules excl rest bg v
  | some view =>
    if startsWithAny modules view then
      if startsWithAny excl view && bg.isSome then
        resolveLoop modules excl rest bg (some view)
      else resolveLoop modules excl rest (some view) (some view)
    else
      if bg.isSome then (bg, some view)
      else resolveLoop modules excl rest bg (some view)

/-- Origin resolution (base.py lines 169-182): run the frame walk, then prefer the best
guess, falling back to whatever the loop last left in `view`. -/
def resolve_view (modules excl : List String) (frames : List Frame) : Option String :=
  match resolveLoop modules excl frames none none with
  | (some bg, _) => some bg
  | (none, v) => v

/-- The known-module list of base.py lines 150-152: the installed apps, united with
`conf.INCLUDE_PATHS` when that is non-empty. -/
def modulesOf (conf : Conf) : List String :=
  if conf.INCLUDE_PATHS ≠ [] then conf.INSTALLED_APPS ++ conf.INCLUDE_PATHS
  else conf.INSTALLED_APPS

/-- The `source` attribute of a Django `TemplateSyntaxError`:
`origin, (start, end) = exc_value.source`, plus the `origin.reload()`, `origin.name`
and `origin.loadname` values read from it. -/
structure TemplateSource where
  origin_reload : Val
  start : Nat
  stop : Nat
  origin_name : String
  loadname : String

/-- The exception type: its `__name__` and, behind the `hasattr` guard of base.py line
188, `exc_type.__class__.__module__`. -/
structure ExcType where
  name : String
  class_module : Option String
deriving DecidableEq

/-- The exception value: its `args`, its string form `force_unicode(exc_value)`, and
whether it is a Django `TemplateSyntaxError` carrying a `source` attribute. -/
structure ExcValue where
  args : List Val
  text : String
  is_template_syntax_error : Bool
  source : Option TemplateSource

/-- The traceback object: the `tb_frame` chain walked by `iter_tb_frames`, the frame
data the external Django `ExceptionReporter.get_traceback_frames()` collaborator
produces for it, and the lines `traceback.format_exception` renders for it. -/
structure Tb where
  frames : List Frame
  reporter_frames : Val
  format_exception : List String

/-- A `(type, value, traceback)` triple as passed for `exc_info`. -/
abbrev ExcInfo := ExcType × ExcValue × Tb

/-- Model of Django's `force_unicode` (external collaborator): on this string model,
Unicode coercion is the identity. -/
def force_unicode (s : String) : String := s

/-- The keyword bag `SentryClient.create_from_exception` (base.py lines 130-212)
assembles before its final `process(...)` call: sanitized reporter frames via
`varmap shorten`; origin resolution into `view` when the caller supplied none; the
`__sentry__` data block; the `TemplateSyntaxError` special case overriding `view`;
the formatted traceback text; the message defaulted from the exception value; and
`class_name` set to the exception type name. -/
def buildExceptionKwargs (conf : Conf) (ei : ExcInfo) (kw : Kwargs) : Kwargs :=
  let exc_type := ei.1
  let exc_value := ei.2.1
  let exc_tb := ei.2.2
  let frames := varmap shorten exc_tb.reporter_frames
  let kw :=
    if kw.view.getD "" ≠ "" then kw
    else
      match resolve_view (modulesOf conf) conf.EXCLUDE_PATHS exc_tb.frames with
      | some v => if v ≠ "" then { kw with view := some v } else kw
      | none => kw
  let data0 := kw.data.getD []
  let exc_module : Val :=
    match exc_type.class_module with
    | some m => .str m
    | none => .vnull
  let sentryEntries : List (String × Val) :=
    [("exc", .vlist [transform exc_module, transform (.vlist exc_value.args),
                     transform frames])]
  let (sentryEntries, kw) :=
    match exc_value.source with
    | some src =>
      if exc_value.is_template_syntax_error then
        (assocSet sentryEntries "template"
          (.vlist [src.origin_reload, .num src.start, .num src.stop,
                   .str src.origin_name]),
         { kw with view := some src.loadname })
      else (sentryEntries, kw)
    | none => (sentryEntries, kw)
  let data1 := assocSet data0 "__sentry__" (.vdict sentryEntries)
  let tb_message := String.intercalate "\n" exc_tb.format_exception
  let kw :=
    match kw.message with
    | some _ => kw
    | none => { kw with message := some (transformStr (force_unicode exc_value.text)) }
  { kw with
    class_name := some exc_type.name,
    traceback := some tb_message,
    data := some data1 }

/-- `SentryClient.create_from_exception` for an explicitly supplied `exc_info` triple
(the `sys.exc_info()` fallback of lines 134-135 only fires when the argument is
absent): assemble the keyword bag and run it through `process`. -/
def create_from_exception (conf : Conf) (st : CacheState) (now : Nat) (fault : Bool)
    (exc_info : Option ExcInfo) (sys_exc_info : ExcInfo) (kw : Kwargs) :
    CacheState × Option Kwargs :=
  processCore conf st now fault (buildExceptionKwargs conf (exc_info.getD sys_exc_info) kw)

/-- The framework request optionally attached to a log record: the metadata mappings
`create_from_record` folds into `data`, plus `request.build_absolute_uri()`. -/
structure Request where
  META : Val
  POST : Val
  GET : Val
  COOKIES : Val
  raw_post_data : Val
  absolute_uri : String

/-- A `logging` module record as `create_from_record` reads it: `name`, `levelno`, the
unformatted `msg` with its interpolation `args`, `exc_info` (possibly a triple of
`None`s), `exc_text`, the optional `url`/`view`/`data` attributes, and the optional
attached framework request. -/
structure LogRecord where
  name : String
  levelno : Nat
  msg : String
  args : List String
  exc_info : Option (Option ExcType × Option ExcValue × Option Tb) := none
  exc_text : Option String := none
  url : Option String := none
  view : Option String := none
  data : Option (List (String × Val)) := none
  request : Option Request := none

/-- `%s`-interpolation of arguments into a template, character by character. -/
def interpolate : List Char → List String → List Char
| [], _ => []
| '%' :: 's' :: rest, a :: as => a.data ++ interpolate rest as
| c :: rest, as => c :: interpolate rest as

/-- Model of `record.getMessage()` (Python `logging`, an external collaborator): the
template with the record's arguments interpolated, or the raw template when there are
no arguments. -/
def LogRecord.getMessage (r : LogRecord) : String :=
  if r.args = [] then r.msg else String.mk (interpolate r.msg.data r.args)

/-- The keyword bag `SentryClient.create_from_record` (base.py lines 75-109) assembles
before branching: copy `url`/`view`/`data` from the record when absent, fold in request
metadata, overwrite `logger`/`level`/`server_name`, set `message` to the *unformatted*
template, compute the checksum from that bag, then replace `message` with the formatted
`record.getMessage()`. -/
def buildRecordKwargs (conf : Conf) (r : LogRecord) (kw : Kwargs) : Kwargs :=
  let kw :=
    { kw with
      url := kw.url.orElse (fun _ => r.url),
      view := kw.view.orElse (fun _ => r.view),
      data := kw.data.orElse (fun _ => r.data) }
  let kw :=
    match r.request with
    | none => kw
    | some req =>
      let d1 := assocSetMany (kw.data.getD [])
        [("META", req.META), ("POST", req.POST), ("GET", req.GET),
         ("COOKIES", req.COOKIES), ("raw_post_data", req.raw_post_data)]
      let u :=
        match kw.url with
        | some s => if s ≠ "" then some s else some req.absolute_uri
        | none => some req.absolute_uri
      { kw with data := some d1, url := u }
  let kw :=
    { kw with
      logger := some r.name,
      level := some r.levelno,
      message := some (force_unicode r.msg),
      server_name := some conf.NAME }
  let kw := { kw with checksum := some (construct_checksum kw) }
  { kw with message := some r.getMessage }

/-- `SentryClient.create_from_record` (base.py lines 75-119): assemble the bag, then
delegate to `create_from_exception` when `record.exc_info` is present with all three
components, and otherwise run `process` with the record's `exc_text` as traceback. -/
def create_from_record (conf : Conf) (st : CacheState) (now : Nat) (fault : Bool)
    (r : LogRecord) (kw : Kwargs) : CacheState × Option Kwargs :=
  let kw2 := buildRecordKwargs conf r kw
  match r.exc_info with
  | some (some et, some ev, some tb) =>
    create_from_exception conf st now fault (some (et, ev, tb)) (et, ev, tb) kw2
  | _ => processCore conf st now fault { kw2 with traceback := r.exc_text }

/-- `SentryClient.create_from_text` (base.py lines 121-128). -/
def create_from_text (conf : Conf) (st : CacheState) (now : Nat) (fault : Bool)
    (message : String) (kw : Kwargs) : CacheState × Option Kwargs :=
  processCore conf st now fault { kw with message := some message }

/-- A sequence of `process` calls (no increment faults), threading the counter store
and recording for each call whether the event reached dispatch. -/
def processSeq (conf : Conf) : CacheState → List (Nat × Kwargs) → CacheState × List Bool
| st, [] => (st, [])
| st, (t, kw) :: rest =>
  let (st1, r) := processCore conf st t false kw
  let (st2, flags) := processSeq conf st1 rest
  (st2, r.isSome :: flags)

/-- The dispatch trace that actually holds of `send`, stated from the spec side for
comparison with `sendLoop`: every configured endpoint is attempted in order; an
endpoint's payload is the original bag until some earlier endpoint has failed, after
which the payload is the bag with `level` and `message` removed. -/
def dispatchTraceSpec (net : String → NetResult) (orig popped : Kwargs) :
    List String → Bool → List (String × Kwargs)
| [], _ => []
| u :: rest, failedBefore =>
  (u, if failedBefore then popped else orig) ::
    dispatchTraceSpec net orig popped rest (failedBefore || (net u).isFailure)

/-! Theorems. -/

/-- C7: on the frame sequence `[libA.f1, app.mod1.f2, app.mod1.f3, libB.f4]` with known
application prefix `"app"` and excluded prefix `"app.mod1.f3"`, origin resolution
returns `app.mod1.f2`: the excluded frame does not overwrite the existing best guess.
The second conjunct shows the walk really stops on exiting the application run: a
further application frame appended after `libB.f4` is ignored.  The third conjunct runs
the scenario through `create_from_exception`'s bag assembly and sees the resolved view
on the event. -/
theorem claim7_origin_scenario :
    resolve_view ["app"] ["app.mod1.f3"]
      [⟨some "libA", "f1"⟩, ⟨some "app.mod1", "f2"⟩, ⟨some "app.mod1", "f3"⟩,
       ⟨some "libB", "f4"⟩] = some "app.mod1.f2"
    ∧ resolve_view ["app"] ["app.mod1.f3"]
      [⟨some "libA", "f1"⟩, ⟨some "app.mod1", "f2"⟩, ⟨some "app.mod1", "f3"⟩,
       ⟨some "libB", "f4"⟩, ⟨some "app.mod1", "f5"⟩] = some "app.mod1.f2"
    ∧ (buildExceptionKwargs
        { INSTALLED_APPS := ["app"], EXCLUDE_PATHS := ["app.mod1.f3"] }
        (⟨"ValueError", some "exceptions"⟩, ⟨[], "boom", false, none⟩,
         ⟨[⟨some "libA", "f1"⟩, ⟨some "app.mod1", "f2"⟩, ⟨some "app.mod1", "f3"⟩,
           ⟨some "libB", "f4"⟩], .vlist [], []⟩)
        {}).view = some "app.mod1.f2" :=
  ⟨by decide, by decide, by rfl⟩

/-- C3 counterexample: a trace whose only computable identifier `libA.f` matches no
known application prefix.  The claim says origin resolution yields none and no view is
set; in the code the loop variable `view` keeps the last computed identifier, the final
`if view:` then stores it, so the event's view is `libA.f`. -/
theorem claim3_counterexample :
    startsWithAny ["app"] "libA.f" = false
    ∧ resolve_view ["app"] [] [⟨some "libA", "f"⟩] = some "libA.f"
    ∧ (buildExceptionKwargs { INSTALLED_APPS := ["app"] }
        (⟨"ValueError", some "exceptions"⟩, ⟨[], "boom", false, none⟩,
         ⟨[⟨some "libA", "f"⟩], .vlist [], []⟩)
        {}).view = some "libA.f" :=
  ⟨by decide, by decide, by rfl⟩

/-- C4 counterexample: one configured filter that returns no result.  The claim says
such a veto drops the event; in the code `filter_(None).process(kwargs) or kwargs`
replaces the missing result with the unchanged bag, and the event is still handed to
`send` (here: with only the defaults filled in). -/
theorem claim4_counterexample :
    ((fun (_ : Kwargs) => (none : Option Kwargs)) { message := some "m" } = none)
    ∧ (processCore { FILTERS := [fun _ => none] } [] 0 false { message := some "m" }).2
      = some (defaults { FILTERS := [fun _ => none] } { message := some "m" }) :=
  ⟨rfl, rfl⟩

/-- C4 amended: a filter that returns no result leaves the event unchanged for the
remaining stages (it is not a veto, and the event is still dispatched); a filter that
returns a transformed bag replaces the bag for the remaining stages; `process` drops an
event only when both throttle settings are non-zero, never because of a filter. -/
theorem claim4_amended (f : Kwargs → Option Kwargs) (rest : List (Kwargs → Option Kwargs))
    (kw kw2 : Kwargs) :
    (f kw = none → applyFilters (f :: rest) kw = applyFilters rest kw)
    ∧ (f kw = some kw2 → applyFilters (f :: rest) kw = applyFilters rest kw2)
    ∧ ∀ (conf : Conf) (st : CacheState) (now : Nat) (fault : Bool) (kw0 : Kwargs),
        (processCore conf st now fault kw0).2 = none →
        conf.THRASHING_TIMEOUT ≠ 0 ∧ conf.THRASHING_LIMIT ≠ 0 := by
  refine ⟨fun h => by simp [applyFilters, h], fun h => by simp [applyFilters, h], ?_⟩
  intro conf st now fault kw0 hnone
  by_cases hc : conf.THRASHING_TIMEOUT ≠ 0 ∧ conf.THRASHING_LIMIT ≠ 0
  · exact hc
  · rw [processCore, if_neg hc] at hnone
    simp at hnone

/-- C4 witness: a single filter returning no result leaves the empty bag untouched. -/
theorem claim4_witness : applyFilters [fun _ => none] noKwargs = noKwargs :=
  (claim4_amended (fun _ => none) [] noKwargs noKwargs).1 rfl

/-- C6 counterexample: `create_from_record` is an entry point, the caller supplies
checksum `"cafe"` explicitly, yet the bag the record path assembles carries a freshly
computed checksum (base.py line 106 overwrites the key unconditionally), so the
supplied checksum is not authoritative there. -/
theorem claim6_counterexample :
    (buildRecordKwargs {} { name := "lg", levelno := 30, msg := "m", args := [] }
      { checksum := some "cafe" }).checksum ≠ some "cafe" := by
  decide

/-- C6 amended: for `process` (hence `create_from_text`) and for
`create_from_exception`'s bag assembly a supplied checksum is authoritative — it is the
one used in the throttle key and, with an empty filter chain, the one on the dispatched
event — but `create_from_record` recomputes and overwrites the checksum from the
unformatted message, ignoring any supplied value. -/
theorem claim6_amended :
    (∀ (kw : Kwargs) (c : String), kw.checksum = some c →
      usedChecksum kw = c
      ∧ throttleKey kw = "sentry:" ++ kw.class_name.getD "" ++ ":" ++ c)
    ∧ (∀ (conf : Conf) (ei : ExcInfo) (kw : Kwargs),
        (buildExceptionKwargs conf ei kw).checksum = kw.checksum)
    ∧ (∀ (conf : Conf) (st : CacheState) (now : Nat) (fault : Bool) (kw kw2 : Kwargs),
        conf.FILTERS = [] → (processCore conf st now fault kw).2 = some kw2 →
        kw2.checksum = kw.checksum)
    ∧ (∀ (conf : Conf) (r : LogRecord) (kw : Kwargs) (c : String),
        buildRecordKwargs conf r { kw with checksum := some c }
          = buildRecordKwargs conf r { kw with checksum := none }) := by
  refine ⟨fun kw c h => ⟨by simp [usedChecksum, h], by simp [throttleKey, usedChecksum, h]⟩, ?_, ?_, ?_⟩
  · intro conf ei kw
    obtain ⟨et, ev, tb⟩ := ei
    obtain ⟨eargs, etext, etse, esrc⟩ := ev
    obtain ⟨km, kl, ks, kc, kn, kv, ku, kg, kt, kd⟩ := kw
    unfold buildExceptionKwargs
    cases esrc <;> cases etse <;> cases km <;>
      (dsimp only; repeat' (first | rfl | split))
  · intro conf st now fault kw kw2 hf h
    have hfp : ∀ kw' : Kwargs, (finishProcess conf kw').checksum = kw'.checksum := by
      intro kw'
      unfold finishProcess
      rw [hf]
      cases hd : kw'.data <;> simp [applyFilters, hd]
    unfold processCore at h
    split at h
    · dsimp only at h
      rcases hA : cacheAdd st (throttleKey (defaults conf kw)) 1 conf.THRASHING_TIMEOUT now
        with ⟨added, st1⟩
      rw [hA] at h
      cases added with
      | true =>
        simp only [if_true] at h
        simp only [Option.some.injEq] at h
        subst h
        exact hfp _
      | false =>
        simp only [Bool.false_eq_true, if_false] at h
        rcases hI : cacheIncr st1 (throttleKey (defaults conf kw)) now fault with ⟨st2, cnt⟩
        rw [hI] at h
        dsimp only at h
        by_cases hc2 : conf.THRASHING_LIMIT < cnt.getD 0
        · rw [if_pos hc2] at h
          simp at h
        · rw [if_neg hc2] at h
          simp only [Option.some.injEq] at h
          subst h
          exact hfp _
    · simp only [Option.some.injEq] at h
      subst h
      exact hfp _
  · intro conf r kw c
    obtain ⟨rn, rl, rm, ra, rei, ret, ru, rv, rd, rr⟩ := r
    cases rr <;> rfl

/-- C6 witness: a bag carrying checksum `"z"` really makes `process` work with `"z"`. -/
theorem claim6_witness :
    usedChecksum { checksum := some "z", class_name := some "E" }
      = "z"
    ∧ throttleKey { checksum := some "z", class_name := some "E" }
      = "sentry:" ++ (some "E").getD "" ++ ":" ++ "z" :=
  claim6_amended.1 { checksum := some "z", class_name := some "E" } "z" rfl

/-- C1: two log records that share the unformatted message template, logger name and
level and differ only in the interpolated arguments produce bags with equal checksums
(the checksum is computed from the raw template, base.py lines 105-106, before line 109
substitutes the formatted message), while each bag's stored message is the formatted,
interpolated `record.getMessage()`. -/
theorem claim1_checksum_stable_across_args (conf : Conf) (r : LogRecord) (kw : Kwargs)
    (args2 : List String) :
    (buildRecordKwargs conf r kw).checksum
      = (buildRecordKwargs conf { r with args := args2 } kw).checksum
    ∧ (buildRecordKwargs conf r kw).message = some r.getMessage
    ∧ (buildRecordKwargs conf { r with args := args2 } kw).message
      = some (LogRecord.getMessage { r with args := args2 }) := by
  obtain ⟨rn, rl, rm, ra, rei, ret, ru, rv, rd, rr⟩ := r
  refine ⟨?_, ?_, ?_⟩ <;> cases rr <;> rfl

/-- C9: `create_from_record` delegates to `create_from_exception` exactly when the
record's `exc_info` is present with all three components; in every other shape —
including the `(None, None, None)` triple an idle `sys.exc_info()` produces — the bag
goes through `process` with the record's `exc_text` as its traceback. -/
theorem claim9_exc_info_delegation (conf : Conf) (st : CacheState) (now : Nat)
    (fault : Bool) (r : LogRecord) (kw : Kwargs) :
    (∀ et ev tb, r.exc_info = some (some et, some ev, some tb) →
      create_from_record conf st now fault r kw
        = create_from_exception conf st now fault (some (et, ev, tb)) (et, ev, tb)
            (buildRecordKwargs conf r kw))
    ∧ ((∀ et ev tb, r.exc_info ≠ some (some et, some ev, some tb)) →
      create_from_record conf st now fault r kw
        = processCore conf st now fault
            { buildRecordKwargs conf r kw with traceback := r.exc_text }) := by
  constructor
  · intro et ev tb h
    simp only [create_from_record, h]
  · intro hnone
    rcases hei : r.exc_info with _ | ⟨oet, oev, otb⟩
    · simp only [create_from_record, hei]
    · rcases oet with _ | et <;> rcases oev with _ | ev <;> rcases otb with _ | tb <;>
        simp only [create_from_record, hei]
      exact absurd hei (hnone et ev tb)

/-- C9 witness: a record carrying `exc_info = (None, None, None)` takes the plain
`process` path with its `exc_text` as the traceback. -/
theorem claim9_witness :
    create_from_record {} [] 0 false
      { name := "lg", levelno := 30, msg := "m", args := [],
        exc_info := some (none, none, none), exc_text := some "tbtext" } {}
      = processCore {} [] 0 false
          { buildRecordKwargs {}
              { name := "lg", levelno := 30, msg := "m", args := [],
                exc_info := some (none, none, none), exc_text := some "tbtext" } {}
            with traceback := some "tbtext" } :=
  (claim9_exc_info_delegation {} [] 0 false
      { name := "lg", levelno := 30, msg := "m", args := [],
        exc_info := some (none, none, none), exc_text := some "tbtext" } {}).2
    (fun et ev tb h => by simp at h)

/-- C8: with throttling configured and the counter already present and unexpired, an
increment fault makes `process` treat the count as zero and continue: the store is left
unchanged and the event proceeds through the filter chain to dispatch. -/
theorem claim8_incr_fault_dispatches (conf : Conf) (st : CacheState) (now : Nat)
    (kw : Kwargs) (e : CacheEntry)
    (hW : conf.THRASHING_TIMEOUT ≠ 0) (hL : conf.THRASHING_LIMIT ≠ 0)
    (hlook : cacheLookup st (throttleKey (defaults conf kw)) = some e)
    (hlive : now < e.expiry) :
    processCore conf st now true kw = (st, some (finishProcess conf (defaults conf kw))) := by
  rw [processCore, if_pos ⟨hW, hL⟩]
  dsimp only
  rw [cacheAdd, hlook]
  simp [cacheIncr, hlive]

/-- C8 witness: counter at 3, alive until time 100; at time 50 the faulting increment
does not suppress the event. -/
theorem claim8_witness :
    processCore { THRASHING_TIMEOUT := 60, THRASHING_LIMIT := 5 }
      [("sentry:E:c", ⟨3, 100⟩)] 50 true { class_name := some "E", checksum := some "c" }
      = ([("sentry:E:c", ⟨3, 100⟩)],
         some (finishProcess { THRASHING_TIMEOUT := 60, THRASHING_LIMIT := 5 }
           (defaults { THRASHING_TIMEOUT := 60, THRASHING_LIMIT := 5 }
             { class_name := some "E", checksum := some "c" }))) :=
  claim8_incr_fault_dispatches _ _ 50 _ ⟨3, 100⟩ (by decide) (by decide) (by decide)
    (by decide)

/-- A single in-window `process` call against an existing live counter entry: the add
fails, the increment bumps the counter, and the event is dispatched exactly when the
new count stays within the limit. -/
theorem processCore_step (conf : Conf) (hW : conf.THRASHING_TIMEOUT ≠ 0)
    (hL : conf.THRASHING_LIMIT ≠ 0) (key : String) (k e t : Nat) (kw : Kwargs)
    (ht : t < e) (hkey : throttleKey (defaults conf kw) = key) :
    processCore conf [(key, ⟨k, e⟩)] t false kw
      = ([(key, ⟨k + 1, e⟩)],
         if conf.THRASHING_LIMIT < k + 1 then none
         else some (finishProcess conf (defaults conf kw))) := by
  rw [processCore, if_pos ⟨hW, hL⟩]
  dsimp only
  rw [hkey, cacheAdd]
  simp only [cacheLookup, if_pos rfl, ht, if_true, cacheIncr, assocSet]
  simp [ht]
  split <;> rfl

/-- A run of in-window `process` calls against an existing live counter entry at count
`k`: the counter ends at `k` plus the number of calls, and the `i`-th call of the run is
dispatched exactly when `k + 1 + i` stays within the limit. -/
theorem processSeq_run (conf : Conf) (hW : conf.THRASHING_TIMEOUT ≠ 0)
    (hL : conf.THRASHING_LIMIT ≠ 0) (key : String) (e : Nat) :
    ∀ (calls : List (Nat × Kwargs)) (k : Nat),
      (∀ p ∈ calls, p.1 < e ∧ throttleKey (defaults conf p.2) = key) →
      processSeq conf [(key, ⟨k, e⟩)] calls
        = ([(key, ⟨k + calls.length, e⟩)],
           (List.range calls.length).map
             (fun i => decide (k + 1 + i ≤ conf.THRASHING_LIMIT))) := by
  intro calls
  induction calls with
  | nil => intro k h; simp [processSeq]
  | cons p rest ih =>
    obtain ⟨t, kw⟩ := p
    intro k h
    have hhead := h (t, kw) (List.mem_cons_self _ _)
    have hrest : ∀ p ∈ rest, p.1 < e ∧ throttleKey (defaults conf p.2) = key :=
      fun p hp => h p (List.mem_cons_of_mem _ hp)
    have hstep := processCore_step conf hW hL key k e t kw hhead.1 hhead.2
    simp only [processSeq, hstep]
    rw [ih (k + 1) hrest]
    simp only [List.length_cons]
    have harith : k + 1 + rest.length = k + (rest.length + 1) := by omega
    rw [harith, List.range_succ_eq_map, List.map_cons, List.map_map]
    have hflag : (if conf.THRASHING_LIMIT < k + 1 then (none : Option Kwargs)
        else some (finishProcess conf (defaults conf kw))).isSome
        = decide (k + 1 + 0 ≤ conf.THRASHING_LIMIT) := by
      by_cases hc : conf.THRASHING_LIMIT < k + 1
      · simp [hc]
      · simp [hc]
        omega
    refine congrArg _ ?_
    rw [hflag]
    refine congrArg₂ List.cons rfl ?_
    apply List.map_congr_left
    intro i _
    simp only [Function.comp]
    exact (decide_eq_decide).mpr (by omega)

/-- Helper: with throttling enabled, a `process` call against a single-entry store
whose entry has expired (or a different key) is dispatched. -/
theorem processCore_dispatch_single (conf : Conf) (hW : conf.THRASHING_TIMEOUT ≠ 0)
    (hL : conf.THRASHING_LIMIT ≠ 0) (key : String) (v e t2 : Nat) (kw2 : Kwargs)
    (he : e ≤ t2) :
    ((processCore conf [(key, ⟨v, e⟩)] t2 false kw2).2).isSome = true := by
  rw [processCore, if_pos ⟨hW, hL⟩]
  dsimp only
  rw [cacheAdd]
  by_cases hk : key = throttleKey (defaults conf kw2)
  · simp [cacheLookup, hk, Nat.not_lt.mpr he]
  · simp [cacheLookup, hk]

/-- C2: with both throttle settings non-zero, a first call at `t0` followed by further
calls inside the window `[t0, t0 + window)` that carry the same class name and checksum
(same throttle key): the `i`-th call (counting from zero) reaches dispatch exactly when
`i < limit` — so the first `limit` occurrences proceed and every later one is silently
suppressed — and any call made at or after `t0 + window` is dispatched again. -/
theorem claim2_throttle_window (conf : Conf) (t0 : Nat) (kw0 : Kwargs)
    (rest : List (Nat × Kwargs))
    (hW : conf.THRASHING_TIMEOUT ≠ 0) (hL : conf.THRASHING_LIMIT ≠ 0)
    (hin : ∀ p ∈ rest, p.1 < t0 + conf.THRASHING_TIMEOUT
        ∧ throttleKey (defaults conf p.2) = throttleKey (defaults conf kw0)) :
    (processSeq conf [] ((t0, kw0) :: rest)).2
      = (List.range (rest.length + 1)).map (fun i => decide (i < conf.THRASHING_LIMIT))
    ∧ ∀ (t2 : Nat) (kw2 : Kwargs), t0 + conf.THRASHING_TIMEOUT ≤ t2 →
        ((processCore conf (processSeq conf [] ((t0, kw0) :: rest)).1 t2 false kw2).2).isSome
          = true := by
  have h0 : processCore conf [] t0 false kw0
      = ([(throttleKey (defaults conf kw0), ⟨1, t0 + conf.THRASHING_TIMEOUT⟩)],
         some (finishProcess conf (defaults conf kw0))) := by
    rw [processCore, if_pos ⟨hW, hL⟩]
    dsimp only
    rw [cacheAdd]
    simp [cacheLookup, assocSet]
  have hrun := processSeq_run conf hW hL (throttleKey (defaults conf kw0))
    (t0 + conf.THRASHING_TIMEOUT) rest 1 hin
  have hseq : processSeq conf [] ((t0, kw0) :: rest)
      = ([(throttleKey (defaults conf kw0),
            ⟨1 + rest.length, t0 + conf.THRASHING_TIMEOUT⟩)],
         true :: (List.range rest.length).map
           (fun i => decide (1 + 1 + i ≤ conf.THRASHING_LIMIT))) := by
    simp only [processSeq, h0, hrun]
    rfl
  refine ⟨?_, ?_⟩
  · rw [hseq]
    simp only [List.length_cons, List.range_succ_eq_map, List.map_cons, List.map_map]
    refine congrArg₂ List.cons ?_ ?_
    · simp [Nat.pos_of_ne_zero hL]
    · apply List.map_congr_left
      intro i _
      simp only [Function.comp]
      exact (decide_eq_decide).mpr (by omega)
  · intro t2 kw2 ht2
    rw [hseq]
    exact processCore_dispatch_single conf hW hL _ _ _ t2 kw2 ht2

/-- C2 witness: window 60, limit 5, six same-key occurrences at times 0..50: the first
five are dispatched, the sixth suppressed; a seventh occurrence at time 60 (window
expired) is dispatched again. -/
theorem claim2_witness :
    (processSeq { THRASHING_TIMEOUT := 60, THRASHING_LIMIT := 5 } []
      [(0, { class_name := some "E", checksum := some "c" }),
       (10, { class_name := some "E", checksum := some "c" }),
       (20, { class_name := some "E", checksum := some "c" }),
       (30, { class_name := some "E", checksum := some "c" }),
       (40, { class_name := some "E", checksum := some "c" }),
       (50, { class_name := some "E", checksum := some "c" })]).2
      = [true, true, true, true, true, false]
    ∧ ((processCore { THRASHING_TIMEOUT := 60, THRASHING_LIMIT := 5 }
        (processSeq { THRASHING_TIMEOUT := 60, THRASHING_LIMIT := 5 } []
          [(0, { class_name := some "E", checksum := some "c" }),
           (10, { class_name := some "E", checksum := some "c" }),
           (20, { class_name := some "E", checksum := some "c" }),
           (30, { class_name := some "E", checksum := some "c" }),
           (40, { class_name := some "E", checksum := some "c" }),
           (50, { class_name := some "E", checksum := some "c" })]).1
        60 false { class_name := some "E", checksum := some "c" }).2).isSome = true := by
  have h := claim2_throttle_window { THRASHING_TIMEOUT := 60, THRASHING_LIMIT := 5 } 0
    { class_name := some "E", checksum := some "c" }
    [(10, { class_name := some "E", checksum := some "c" }),
     (20, { class_name := some "E", checksum := some "c" }),
     (30, { class_name := some "E", checksum := some "c" }),
     (40, { class_name := some "E", checksum := some "c" }),
     (50, { class_name := some "E", checksum := some "c" })]
    (by decide) (by decide) (by decide)
  exact ⟨h.1.trans (by decide), h.2 60 { class_name := some "E", checksum := some "c" } (by decide)⟩

/-- `getLast?` of a non-empty list, one step at a time. -/
theorem getLast?_cons_eq {α : Type} (a : α) (l : List α) :
    (a :: l).getLast? = match l.getLast? with | some x => some x | none => some a := by
  induction l generalizing a with
  | nil => rfl
  | cons b t ih =>
    rw [List.getLast?_cons_cons]
    cases hbt : (b :: t).getLast? with
    | none => rw [ih b] at hbt; cases ht : t.getLast? <;> simp [ht] at hbt
    | some y => rfl

/-- The frame walk when no computable identifier matches a known module prefix: the
best guess stays unset, the walk never stops early, and `view` ends as the last
computable identifier (or the incoming one when none is computable). -/
theorem resolveLoop_no_app (modules excl : List String) :
    ∀ (frames : List Frame) (v : Option String),
      (∀ id ∈ frames.filterMap Frame.ident, startsWithAny modules id = false) →
      resolveLoop modules excl frames none v
        = (none, match (frames.filterMap Frame.ident).getLast? with
                 | some x => some x
                 | none => v) := by
  intro frames
  induction frames with
  | nil => intro v h; rfl
  | cons f rest ih =>
    intro v h
    cases hid : f.ident with
    | none =>
      simp only [resolveLoop, hid]
      rw [ih v (fun id hid2 => h id (by rw [List.filterMap_cons, hid]; exact hid2))]
      simp [List.filterMap_cons, hid]
    | some id =>
      have hnm : startsWithAny modules id = false :=
        h id (by simp [List.filterMap_cons, hid])
      simp only [resolveLoop, hid, hnm, Bool.false_eq_true, if_false, Option.isSome_none]
      rw [ih (some id) (fun id2 h2 => h id2
        (by rw [List.filterMap_cons, hid]; exact List.mem_cons_of_mem _ h2))]
      simp only [List.filterMap_cons, hid, getLast?_cons_eq]
      cases h3 : (rest.filterMap Frame.ident).getLast? <;> rfl

/-- C3 amended: when no frame identifier matches a known application-module prefix, no
best guess is found, and origin resolution yields the identifier of the *last* frame
whose identifier could be computed (the loop's scratch `view` variable leaks out);
frames without computable identifiers are skipped without aborting resolution, and only
when no identifier at all is computable does `create_from_exception` leave the event's
view unset. -/
theorem claim3_amended (modules excl : List String) (frames : List Frame)
    (h : ∀ id ∈ frames.filterMap Frame.ident, startsWithAny modules id = false) :
    resolve_view modules excl frames = (frames.filterMap Frame.ident).getLast?
    ∧ ∀ (conf : Conf) (ei : ExcInfo) (kw : Kwargs),
        modulesOf conf = modules → conf.EXCLUDE_PATHS = excl →
        ei.2.2.frames = frames → frames.filterMap Frame.ident = [] →
        ei.2.1.source = none → kw.view = none →
        (buildExceptionKwargs conf ei kw).view = none := by
  have hres : resolve_view modules excl frames = (frames.filterMap Frame.ident).getLast? := by
    rw [resolve_view, resolveLoop_no_app modules excl frames none h]
    cases hgl : (frames.filterMap Frame.ident).getLast? <;> simp
  refine ⟨hres, ?_⟩
  intro conf ei kw h1 h2 h3 h4 h5 h6
  obtain ⟨et, ev, tb⟩ := ei
  obtain ⟨eargs, etext, etse, esrc⟩ := ev
  dsimp only at h3 h5
  subst h5
  unfold buildExceptionKwargs
  dsimp only
  rw [h3, h1, h2, hres, h4]
  simp only [h6, Option.getD_none, ne_eq, not_true_eq_false, if_false, List.getLast?_nil]
  cases hm : kw.message <;> simp [hm, h6]

/-- C3 witness: a trace of one incomputable frame and one `libA.f` frame (not an
application module) resolves to `libA.f`; a trace with only incomputable frames leaves
the event's view unset. -/
theorem claim3_witness :
    resolve_view ["app"] [] [⟨none, "g"⟩, ⟨some "libA", "f"⟩] = some "libA.f"
    ∧ (buildExceptionKwargs { INSTALLED_APPS := ["app"] }
        (⟨"E", none⟩, ⟨[], "x", false, none⟩, ⟨[⟨none, "g"⟩], .vlist [], []⟩)
        {}).view = none :=
  ⟨((claim3_amended ["app"] [] [⟨none, "g"⟩, ⟨some "libA", "f"⟩] (by decide)).1).trans
     (by decide),
   (claim3_amended ["app"] [] [⟨none, "g"⟩] (by decide)).2
     { INSTALLED_APPS := ["app"] }
     (⟨"E", none⟩, ⟨[], "x", false, none⟩, ⟨[⟨none, "g"⟩], .vlist [], []⟩) {}
     rfl rfl rfl (by decide) rfl rfl⟩

/-- The endpoint loop refines the spec-side trace: starting from the original bag when
no failure has happened yet (and from the popped bag otherwise), the attempted payloads
are exactly `dispatchTraceSpec`. -/
theorem sendLoop_trace (net : String → NetResult) (kw : Kwargs) :
    ∀ (urls : List String) (kwcur : Kwargs) (fb : Bool),
      kwcur = (if fb then popLevelMessage kw else kw) →
      (sendLoop net urls kwcur).1 = dispatchTraceSpec net kw (popLevelMessage kw) urls fb := by
  intro urls
  induction urls with
  | nil => intro kwcur fb hk; rfl
  | cons u rest ih =>
    intro kwcur fb hk
    have hpop : popLevelMessage kwcur = popLevelMessage kw := by
      cases fb <;> subst hk <;> rfl
    cases hn : net u with
    | success =>
      rcases hsl : sendLoop net rest kwcur with ⟨tr, lg, ke⟩
      have hrec := ih kwcur fb hk
      rw [hsl] at hrec
      simp only [sendLoop, hn, hsl, dispatchTraceSpec, NetResult.isFailure, Bool.or_false]
      exact congrArg₂ List.cons (by rw [hk]) hrec
    | urlError m =>
      rcases hsl : sendLoop net rest (popLevelMessage kwcur) with ⟨tr, lg, ke⟩
      have hrec := ih (popLevelMessage kwcur) true (by rw [hpop]; rfl)
      rw [hsl] at hrec
      simp only [sendLoop, hn, hsl, dispatchTraceSpec, NetResult.isFailure, Bool.or_true]
      exact congrArg₂ List.cons (by rw [hk]) hrec
    | httpError m body =>
      rcases hsl : sendLoop net rest (popLevelMessage kwcur) with ⟨tr, lg, ke⟩
      have hrec := ih (popLevelMessage kwcur) true (by rw [hpop]; rfl)
      rw [hsl] at hrec
      simp only [sendLoop, hn, hsl, dispatchTraceSpec, NetResult.isFailure, Bool.or_true]
      exact congrArg₂ List.cons (by rw [hk]) hrec

/-- The spec-side trace attempts exactly the configured endpoints, in order. -/
theorem dispatchTraceSpec_map_fst (net : String → NetResult) (orig popped : Kwargs) :
    ∀ (urls : List String) (fb : Bool),
      (dispatchTraceSpec net orig popped urls fb).map Prod.fst = urls := by
  intro urls
  induction urls with
  | nil => intro fb; rfl
  | cons u rest ih => intro fb; simp only [dispatchTraceSpec, List.map_cons, ih]

/-- C5 counterexample: two endpoints, the first fails with a network error.  The claim
says every endpoint receives the original event with the same level and message; in the
code the failure handler runs `kwargs.pop('level', ...)` and `kwargs.pop('message', ...)`,
so the second endpoint's payload has no level and no message. -/
theorem claim5_counterexample :
    (sendLoop (fun u => if u = "u1" then NetResult.urlError "down" else .success)
      ["u1", "u2"] { level := some 40, message := some "m" }).1
      = [("u1", { level := some 40, message := some "m" }),
         ("u2", { level := none, message := none })]
    ∧ ({ level := none, message := none } : Kwargs).level
      ≠ ({ level := some 40, message := some "m" } : Kwargs).level :=
  ⟨rfl, by decide⟩

/-- C5 amended: with remote endpoints configured, `send` runs the loop over every
endpoint (it catches delivery failures, so none raises), attempting each one in order;
each payload is the original bag until some earlier endpoint has failed, after which
the payloads carry the bag with `level` and `message` removed. -/
theorem claim5_amended (conf : Conf) (net : String → NetResult) (kw : Kwargs)
    (h : conf.REMOTE_URL ≠ []) :
    send conf net kw
      = .remote (sendLoop net conf.REMOTE_URL kw).1 (sendLoop net conf.REMOTE_URL kw).2.1
    ∧ (sendLoop net conf.REMOTE_URL kw).1.map Prod.fst = conf.REMOTE_URL
    ∧ (sendLoop net conf.REMOTE_URL kw).1
      = dispatchTraceSpec net kw (popLevelMessage kw) conf.REMOTE_URL false := by
  have htr := sendLoop_trace net kw conf.REMOTE_URL kw false rfl
  refine ⟨?_, ?_, htr⟩
  · rw [send, if_pos h]
  · rw [htr]
    exact dispatchTraceSpec_map_fst net kw (popLevelMessage kw) conf.REMOTE_URL false

/-- C5 witness: the two-endpoint scenario, first endpoint failing, run through the
amended statement. -/
theorem claim5_witness :
    (sendLoop (fun u => if u = "u1" then NetResult.urlError "down" else .success)
      ["u1", "u2"] { level := some 40, message := some "m" }).1
      = dispatchTraceSpec (fun u => if u = "u1" then NetResult.urlError "down" else .success)
          { level := some 40, message := some "m" }
          (popLevelMessage { level := some 40, message := some "m" }) ["u1", "u2"] false :=
  (claim5_amended { REMOTE_URL := ["u1", "u2"] }
    (fun u => if u = "u1" then NetResult.urlError "down" else .success)
    { level := some 40, message := some "m" } (by decide)).2.2

/-- String append acts as list append on the character data. -/
theorem data_append (a b : String) : (a ++ b).data = a.data ++ b.data := by
  cases a
  cases b
  rfl

/-- `pyLen` is additive over append. -/
theorem pyLen_append (a b : String) : pyLen (a ++ b) = pyLen a + pyLen b := by
  simp [pyLen, data_append]

/-- Length of a Python slice. -/
theorem pyLen_pySlice (s : String) (n : Nat) : pyLen (pySlice s n) = min n (pyLen s) := by
  simp [pyLen, pySlice]

/-- Short strings are left alone by the clip map. -/
theorem clipStr_of_le (s : String) (h : pyLen s ≤ 200) : clipStr s = s := by
  rw [clipStr, if_neg (by omega)]

/-- Long strings clip to exactly 203 characters. -/
theorem pyLen_clipStr_of_gt (s : String) (h : 200 < pyLen s) : pyLen (clipStr s) = 203 := by
  rw [clipStr, if_pos h, pyLen_append, pyLen_pySlice]
  have h3 : pyLen "..." = 3 := rfl
  omega

/-- Clipping is idempotent. -/
theorem clipStr_idem (s : String) : clipStr (clipStr s) = clipStr s := by
  by_cases h : 200 < pyLen s
  · have h2 : pyLen (clipStr s) = 203 := pyLen_clipStr_of_gt s h
    rw [clipStr, if_pos (by omega : 200 < pyLen (clipStr s))]
    have hsl : pySlice (clipStr s) 200 = pySlice s 200 := by
      rw [clipStr, if_pos h, pySlice, pySlice, data_append]
      have hlen : (s.data.take 200).length = 200 := by
        rw [List.length_take]
        have h4 : 200 < s.data.length := h
        omega
      rw [List.take_left' hlen]
    rw [hsl, clipStr, if_pos h]
  · rw [clipStr_of_le s (by omega), clipStr_of_le s (by omega)]

/-- `shorten` on a string leaf is exactly the clip map: `transform` (spec rule) and the
explicit 200-character check of base.py lines 141-142 compose to a single clip. -/
theorem shorten_str (s : String) : shorten (.str s) = .str (clipStr s) := by
  have ht : transform (.str s) = .str (clipStr s) := by
    simp only [transform]
    rfl
  rw [shorten, ht]
  show (if 200 < pyLen (clipStr s) then Val.str (pySlice (clipStr s) 200 ++ "...")
        else Val.str (clipStr s)) = Val.str (clipStr s)
  by_cases h : 200 < pyLen s
  · rw [if_pos (by rw [pyLen_clipStr_of_gt s h]; omega)]
    have hidem := clipStr_idem s
    rw [clipStr, if_pos (by rw [pyLen_clipStr_of_gt s h]; omega)] at hidem
    rw [hidem]
  · rw [if_neg (by rw [clipStr_of_le s (by omega)]; omega)]

/-- Bounded induction for the sanitized-leaf correspondence. -/
theorem strLeaves_varmap_shorten_aux :
    ∀ (n : Nat) (v : Val), sizeOf v ≤ n →
      strLeaves (varmap shorten v) = (strLeaves v).map clipStr := by
  intro n
  induction n with
  | zero =>
    intro v hv
    exfalso
    cases v <;> simp_arith at hv
  | succ n ih =>
    intro v hv
    match v with
    | .str s => rw [show varmap shorten (.str s) = shorten (.str s) from rfl, shorten_str]; rfl
    | .num k => rfl
    | .vnull => rfl
    | .vdict kvs =>
      have hs : sizeOf kvs ≤ n := by simp_arith at hv; omega
      simp only [varmap, strLeaves]
      clear hv
      revert hs
      induction kvs with
      | nil => intro hs; rfl
      | cons kv rest ihl =>
        intro hs
        obtain ⟨k, v2⟩ := kv
        have hv2 : sizeOf v2 ≤ n := by simp_arith at hs; omega
        have hrest : sizeOf rest ≤ n := by simp_arith at hs; omega
        simp only [varmapDict, strLeavesDict, List.map_append]
        rw [ih v2 hv2, ihl hrest]
    | .vlist vs =>
      have hs : sizeOf vs ≤ n := by simp_arith at hv; omega
      simp only [varmap, strLeaves]
      clear hv
      revert hs
      induction vs with
      | nil => intro hs; rfl
      | cons v2 rest ihl =>
        intro hs
        have hv2 : sizeOf v2 ≤ n := by simp_arith at hs; omega
        have hrest : sizeOf rest ≤ n := by simp_arith at hs; omega
        simp only [varmapList, strLeavesList, List.map_append]
        rw [ih v2 hv2, ihl hrest]

/-- C10: over any frame structure, the string leaves of `varmap shorten frames` are
exactly the string leaves of the input with every string longer than 200 characters
replaced by its first 200 characters followed by `'...'` (203 characters), and every
string of at most 200 characters left unchanged. -/
theorem claim10_frame_string_truncation (frames : Val) :
    strLeaves (varmap shorten frames) = (strLeaves frames).map clipStr
    ∧ (∀ s : String, 200 < pyLen s →
        clipStr s = pySlice s 200 ++ "..." ∧ pyLen (clipStr s) = 203)
    ∧ (∀ s : String, pyLen s ≤ 200 → clipStr s = s) :=
  ⟨strLeaves_varmap_shorten_aux (sizeOf frames) frames le_rfl,
   fun s h => ⟨by rw [clipStr, if_pos h], pyLen_clipStr_of_gt s h⟩,
   fun s h => clipStr_of_le s h⟩

/-- C10 witness: a 201-character local-variable string in a frame dict clips to 203
characters, while `"ab"` survives unchanged. -/
theorem claim10_witness :
    strLeaves (varmap shorten
        (Val.vdict [("vars", Val.str (String.mk (List.replicate 201 'a')))]))
      = [clipStr (String.mk (List.replicate 201 'a'))]
    ∧ pyLen (clipStr (String.mk (List.replicate 201 'a'))) = 203
    ∧ clipStr "ab" = "ab" :=
  ⟨(claim10_frame_string_truncation
      (Val.vdict [("vars", Val.str (String.mk (List.replicate 201 'a')))])).1,
   ((claim10_frame_string_truncation (Val.str "x")).2.1
      (String.mk (List.replicate 201 'a')) (by decide)).2,
   (claim10_frame_string_truncation (Val.str "x")).2.2 "ab" (by decide)⟩

end Sentry


